import Mathlib

/-
Verification of the NPC decision-making core of the wasted-potential-game
repository: a shallow embedding of `NPCMemory.js`, `NPCAgent.js`,
`Inventory.js`, the rock-inventory methods of `NPC.js` and
`game.throwRockAt` of `main.js`, together with proofs of the spec claims
about them.

Modelling conventions:
  - JS numbers that only ever hold integers (reputation, rock counts, ids)
    are `Int`; world coordinates are `Rat`.  Distance comparisons
    `dist < c` in the source are modelled as `distSq < c^2` (both sides are
    nonnegative, so the two are equivalent).  Where the source normalizes a
    direction vector (a scaling by the reciprocal Euclidean norm, which is
    irrational in general), the model keeps the unnormalized difference
    vector; no claim inspects a direction magnitude.
  - Wall-clock timestamps (`new Date().toISOString()`) and the
    `localStorage` persistence calls are omitted: no claim reads them.
  - Fallible network calls are inputs of the model (`CycleOracle`), with
    `Except` for the calls whose source can throw.
-/

namespace WastedPotential

/-! ## Basic utilities shared by the embedding -/

/-- JS `list.slice(-n)`: the last `n` elements of a list. -/
def takeLast (n : Nat) (l : List α) : List α := l.drop (l.length - n)

/-- The trimming pattern used by every ring buffer in `NPCMemory.js`:
`if (l.length > n) l = l.slice(-n)`. -/
def trimTo (n : Nat) (l : List α) : List α :=
  if l.length > n then takeLast n l else l

/-- JS `Array.prototype.join(sep)`. -/
def joinSep (sep : String) : List String → String
  | [] => ""
  | [s] => s
  | s :: rest => s ++ sep ++ joinSep sep rest

/-- `String.prototype.trim()`: strip leading and trailing whitespace
(structurally, so that concrete values reduce). -/
def jsTrim (s : String) : String :=
  String.mk (((s.data.dropWhile Char.isWhitespace).reverse.dropWhile
    Char.isWhitespace).reverse)

/-- JS truthiness of an optional string field: `undefined` and `""` are
falsy. -/
def truthyStr : Option String → Bool
  | none => false
  | some s => s ≠ ""

/-- JS string interpolation of a possibly-`undefined` value. -/
def jsStr (o : Option String) : String := o.getD "undefined"

/-- Numeric `v || 0` on an optional field.  Since the default equals the
falsy number `0`, missing and zero both yield `0`. -/
def jsOrZero (o : Option Rat) : Rat := o.getD 0

/-- Value of a list of decimal digit characters. -/
def digitsVal (cs : List Char) : Option Nat :=
  if cs = [] then none
  else some (cs.foldl (fun a c => a * 10 + (c.toNat - '0'.toNat)) 0)

/-- JS `parseInt` on a decimal string: skip whitespace, optional sign,
then the longest prefix of digits; `NaN` (here `none`) when no digit is
found.  (Radix prefixes never occur in the inputs of this program.) -/
def parseIntJs (s : String) : Option Int :=
  match (jsTrim s).data with
  | '-' :: rest => (digitsVal (rest.takeWhile Char.isDigit)).map (fun n => -(n : Int))
  | '+' :: rest => (digitsVal (rest.takeWhile Char.isDigit)).map (fun n => (n : Int))
  | cs => (digitsVal (cs.takeWhile Char.isDigit)).map (fun n => (n : Int))

/-- Left-pad a string with `'0'` up to length `len`. -/
def padZeros (len : Nat) (s : String) : String :=
  String.mk (List.replicate (len - s.length) '0') ++ s

/-- `Number.prototype.toFixed(digits)` for the rationals arising here:
round to `digits` fractional digits, ties away from zero (binary
floating-point artifacts are not modelled). -/
def toFixed (digits : Nat) (q : Rat) : String :=
  let p : Int := (10 : Int) ^ digits
  let scaled : Rat := q * (p : Rat)
  let n : Int := if 0 ≤ scaled then ⌊scaled + 1/2⌋ else ⌈scaled - 1/2⌉
  let sign := if n < 0 then "-" else ""
  let a := n.natAbs
  if digits = 0 then sign ++ toString a
  else sign ++ toString (a / p.natAbs) ++ "." ++ padZeros digits (toString (a % p.natAbs))

/-- `s.charAt(0).toUpperCase() + s.slice(1)`. -/
def capitalize (s : String) : String :=
  match s.toList with
  | [] => ""
  | c :: cs => String.mk (c.toUpper :: cs)

/-- `sub` occurs contiguously inside `s`. -/
def strContains (s sub : String) : Prop :=
  ∃ a b : List Char, s.data = a ++ sub.data ++ b

/-! ## Memory model (`NPCMemory.js`) -/

/-- A sentiment-analysis result, as produced by
`NPCAgent.analyzeSentiment`: `{label, confidence, reasoning}`. -/
structure Sentiment where
  label : String
  confidence : Rat
  reasoning : String
deriving DecidableEq, Repr

/-- One entry of `memory.conversationHistory` (the timestamp field, which
no claim reads, is omitted). -/
structure ConvEntry where
  role : String
  content : String
  sentiment : Option Sentiment
deriving DecidableEq, Repr

/-- One entry of `memory.actionMemory`; `throwerId` is the one `details`
field the source ever stores (`addAction("player_hit", { throwerId }, true)`). -/
structure ActionEntry where
  action : String
  throwerId : Option String
deriving DecidableEq, Repr

/-- One entry of `memory.playerInteractions`. -/
structure Interaction where
  itype : String
  throwerId : Option String
  message : Option String
  sentiment : Option Sentiment
  impact : String
  reputationChange : Int
deriving DecidableEq, Repr

/-- A trait value in a personality object: the source branches on
`typeof value === "number"`. -/
inductive TraitVal where
  | num (q : Rat)
  | str (s : String)
deriving DecidableEq, Repr

/-- The personality object read by `buildSystemPrompt`: `backstory`,
`name`, a `traits` map (iterated in insertion order, as
`Object.entries` does), and the legacy numeric traits used when `traits`
is absent. -/
structure Personality where
  name : Option String := none
  backstory : Option String := none
  traits : Option (List (String × TraitVal)) := none
  friendliness : Option Rat := none
  curiosity : Option Rat := none
  energy : Option Rat := none
  talkativeness : Option Rat := none
deriving DecidableEq, Repr

/-- The `NPCMemory.memory` object (`npcId` and `lastUpdated`, which the
recording operations never read, are omitted). -/
structure MemStore where
  personality : Option Personality := none
  conversationHistory : List ConvEntry := []
  actionMemory : List ActionEntry := []
  playerReputation : Int := 0
  playerInteractions : List Interaction := []
deriving DecidableEq, Repr

/-- A freshly constructed memory (no stored state found). -/
def freshStore : MemStore := {}

/-- `NPCMemory.addConversation(role, content, timestamp, sentiment)`:
only entries with `role === "user"` are stored, and the history is
trimmed to the last 20 entries. -/
def addConversation (m : MemStore) (role content : String)
    (sentiment : Option Sentiment) : MemStore :=
  if role = "user" then
    { m with conversationHistory :=
        trimTo 20 (m.conversationHistory ++ [⟨role, content, sentiment⟩]) }
  else m

/-- `NPCMemory.addAction(action, details, isPlayerAction)`: only player
actions are stored, and the log is trimmed to the last 30 entries. -/
def addAction (m : MemStore) (action : String) (throwerId : Option String)
    (isPlayerAction : Bool) : MemStore :=
  if isPlayerAction then
    { m with actionMemory := trimTo 30 (m.actionMemory ++ [⟨action, throwerId⟩]) }
  else m

/-- The `PlayerInteraction` entry pushed by `recordPlayerHit`. -/
def hitEntry (throwerId : String) : Interaction :=
  ⟨"hit", some throwerId, none, none, "hostile", -10⟩

/-- `NPCMemory.recordPlayerHit(throwerId)`: reputation decreases by 10,
the hit interaction is appended (buffer trimmed to 50), and the hit is
also logged through `addAction("player_hit", { throwerId }, true)`. -/
def recordPlayerHit (m : MemStore) (throwerId : String) : MemStore :=
  let m1 := { m with
    playerReputation := m.playerReputation - 10,
    playerInteractions := trimTo 50 (m.playerInteractions ++ [hitEntry throwerId]) }
  addAction m1 "player_hit" (some throwerId) true

/-- The per-label reputation delta computed inside `recordPlayerMessage`
(an unlisted label leaves the initial `reputationChange = 0`). -/
def sentimentDelta (label : String) : Int :=
  if label = "friendly" ∨ label = "positive" then 2
  else if label = "hostile" ∨ label = "threatening" ∨ label = "negative" then -5
  else if label = "neutral" then 1
  else 0

/-- The `PlayerInteraction` entry pushed by `recordPlayerMessage`. -/
def messageEntry (message : String) (sentiment : Sentiment) : Interaction :=
  ⟨"message", none, some message, some sentiment, sentiment.label,
    sentimentDelta sentiment.label⟩

/-- `NPCMemory.recordPlayerMessage(message, sentiment)`: reputation moves
by the sentiment-mapped delta, the message interaction is appended
(buffer trimmed to 50), and the message is also stored through
`addConversation("user", message, null, sentiment)`. -/
def recordPlayerMessage (m : MemStore) (message : String)
    (sentiment : Sentiment) : MemStore :=
  let m1 := { m with
    playerReputation := m.playerReputation + sentimentDelta sentiment.label,
    playerInteractions :=
      trimTo 50 (m.playerInteractions ++ [messageEntry message sentiment]) }
  addConversation m1 "user" message (some sentiment)

/-- The two mutation operations of claim C1. -/
inductive RecOp where
  | hit (throwerId : String)
  | msg (message : String) (sentiment : Sentiment)
deriving DecidableEq, Repr

def applyRecOp (m : MemStore) : RecOp → MemStore
  | .hit t => recordPlayerHit m t
  | .msg s sent => recordPlayerMessage m s sent

def applyRecOps (m : MemStore) (ops : List RecOp) : MemStore :=
  ops.foldl applyRecOp m

/-- The `PlayerInteraction` entry each operation pushes (before the ring
buffer is trimmed): exactly the object literal from the source. -/
def recordedEntry : RecOp → Interaction
  | .hit t => hitEntry t
  | .msg s sent => messageEntry s sent

/-- All four memory mutations of claim C2. -/
inductive MemOp where
  | conv (role content : String) (sentiment : Option Sentiment)
  | act (action : String) (throwerId : Option String) (isPlayerAction : Bool)
  | hit (throwerId : String)
  | msg (message : String) (sentiment : Sentiment)
deriving DecidableEq, Repr

def applyMemOp (m : MemStore) : MemOp → MemStore
  | .conv r c s => addConversation m r c s
  | .act a t b => addAction m a t b
  | .hit t => recordPlayerHit m t
  | .msg s sent => recordPlayerMessage m s sent

def applyMemOps (m : MemStore) (ops : List MemOp) : MemStore :=
  ops.foldl applyMemOp m

/-- The conversation entries one operation appends (untrimmed). -/
def convPush : MemOp → List ConvEntry
  | .conv r c s => if r = "user" then [⟨r, c, s⟩] else []
  | .msg s sent => [⟨"user", s, some sent⟩]
  | _ => []

/-- The action entries one operation appends (untrimmed). -/
def actPush : MemOp → List ActionEntry
  | .act a t b => if b then [⟨a, t⟩] else []
  | .hit t => [⟨"player_hit", some t⟩]
  | _ => []

/-- The player-interaction entries one operation appends (untrimmed). -/
def interPush : MemOp → List Interaction
  | .hit t => [hitEntry t]
  | .msg s sent => [messageEntry s sent]
  | _ => []

/-- Full (untrimmed) conversation log of a sequence of mutations. -/
def convLog (ops : List MemOp) : List ConvEntry :=
  ops.foldl (fun acc op => acc ++ convPush op) []

/-- Full (untrimmed) action log of a sequence of mutations. -/
def actLog (ops : List MemOp) : List ActionEntry :=
  ops.foldl (fun acc op => acc ++ actPush op) []

/-- Full (untrimmed) player-interaction log of a sequence of mutations. -/
def interLog (ops : List MemOp) : List Interaction :=
  ops.foldl (fun acc op => acc ++ interPush op) []

/-- The summary object returned by `NPCMemory.getContext()`. -/
structure MemoryContext where
  personality : Option Personality
  playerReputation : Int
  recentPlayerInteractions : List Interaction
  recentConversations : List ConvEntry
  recentActions : List ActionEntry
  totalConversations : Nat
  totalActions : Nat
  totalPlayerInteractions : Nat
deriving DecidableEq, Repr

/-- `NPCMemory.getContext()`. -/
def MemStore.getContext (m : MemStore) : MemoryContext :=
  ⟨m.personality, m.playerReputation,
    takeLast 10 m.playerInteractions,
    takeLast 10 m.conversationHistory,
    takeLast 10 m.actionMemory,
    m.conversationHistory.length, m.actionMemory.length,
    m.playerInteractions.length⟩

/-! ## Inventories (`Inventory.js` and the rock methods of `NPC.js`) -/

/-- The player inventory of `Inventory.js` (only rocks exist). -/
structure Inventory where
  rocks : Int := 0
deriving DecidableEq, Repr

/-- `Inventory.addRocks(count)`. -/
def Inventory.addRocks (inv : Inventory) (count : Int) : Inventory :=
  { inv with rocks := inv.rocks + count }

/-- `Inventory.removeRocks(count)`: succeeds and subtracts only when
enough rocks are present; otherwise returns `false` unchanged. -/
def Inventory.removeRocks (inv : Inventory) (count : Int) : Bool × Inventory :=
  if count ≤ inv.rocks then (true, { inv with rocks := inv.rocks - count })
  else (false, inv)

/-- The per-NPC rock pouch of `NPC.js` (`this.inventory.rocks`). -/
structure NPCInv where
  rocks : Int := 0
deriving DecidableEq, Repr

/-- `NPC.addRock(count)`. -/
def NPCInv.addRock (inv : NPCInv) (count : Int) : NPCInv :=
  { inv with rocks := inv.rocks + count }

/-- `NPC.removeRock(count)`. -/
def NPCInv.removeRock (inv : NPCInv) (count : Int) : Bool × NPCInv :=
  if count ≤ inv.rocks then (true, { inv with rocks := inv.rocks - count })
  else (false, inv)

/-- One add/remove request against a rock inventory (claim C10). -/
inductive InvOp where
  | add (count : Int)
  | remove (count : Int)
deriving DecidableEq, Repr

def InvOp.count : InvOp → Int
  | .add k => k
  | .remove k => k

def applyInvOp (inv : Inventory) : InvOp → Inventory
  | .add k => inv.addRocks k
  | .remove k => (inv.removeRocks k).2

def applyInvOps (inv : Inventory) (ops : List InvOp) : Inventory :=
  ops.foldl applyInvOp inv

def applyNPCInvOp (inv : NPCInv) : InvOp → NPCInv
  | .add k => inv.addRock k
  | .remove k => (inv.removeRock k).2

def applyNPCInvOps (inv : NPCInv) (ops : List InvOp) : NPCInv :=
  ops.foldl applyNPCInvOp inv

/-! ## World model for tool execution (`NPCAgent.js` tool layer) -/

structure V3 where
  x : Rat
  y : Rat
  z : Rat
deriving DecidableEq, Repr

def V3.sub (a b : V3) : V3 := ⟨a.x - b.x, a.y - b.y, a.z - b.z⟩

def V3.add (a b : V3) : V3 := ⟨a.x + b.x, a.y + b.y, a.z + b.z⟩

def V3.smul (a : V3) (k : Rat) : V3 := ⟨a.x * k, a.y * k, a.z * k⟩

/-- Squared Euclidean distance; the source compares `distanceTo` against a
constant `c`, which is equivalent to comparing `distSq` against `c^2`. -/
def V3.distSq (a b : V3) : Rat :=
  (a.x - b.x) ^ 2 + (a.y - b.y) ^ 2 + (a.z - b.z) ^ 2

/-- Squared distance in the x-z plane (used by `hideFromRain`). -/
def distSq2 (px pz sx sz : Rat) : Rat := (px - sx) ^ 2 + (pz - sz) ^ 2

/-- A projectile throw issued through `game.throwRockAt`.  The source
normalizes `direction` before passing it (a scaling by the reciprocal
Euclidean norm, irrational in general); the model records the
unnormalized difference vector — no claim inspects its magnitude. -/
structure Throw where
  startPos : V3
  direction : V3
  speed : Rat
  throwerId : Int
deriving DecidableEq, Repr

/-- A `setTimeout` continuation scheduled by the two-phase tools
(move, then act after a fixed 2000 ms delay). -/
inductive Pending where
  | collectRock (pos : V3)
  | toggleLamp (pos : V3)
deriving DecidableEq, Repr

/-- The slice of game state that the NPC tools read and write:
the NPC owned by the agent, the shared game collaborators, and the effect
logs (speeches, throws, lamp toggles, scheduled timeouts). -/
structure World where
  npcId : Int
  npcPos : V3
  npcRocks : Int
  playerPos : V3
  playerRocks : Int
  npcs : List (Int × V3)
  rocks : List V3
  lamps : List V3
  currentTarget : Option V3 := none
  speeches : List String := []
  throws : List Throw := []
  lampToggles : List V3 := []
  pending : List Pending := []
deriving DecidableEq, Repr

/-- `this.npc.speak(message)`: the message is displayed and vocalized. -/
def npcSpeak (w : World) (message : String) : World :=
  { w with speeches := w.speeches ++ [message] }

/-- `NPCAgent.moveTo(x, y, z)`: builds `Vector3(x, y || 0, z)` and calls
`npc.setTargetPosition`. -/
def moveTo (w : World) (x y z : Rat) : World :=
  { w with currentTarget := some ⟨x, y, z⟩ }

/-- `this.npc.addRock(count)` acting on the world. -/
def npcAddRock (w : World) (count : Int) : World :=
  { w with npcRocks := w.npcRocks + count }

/-- `this.npc.removeRock(count)` acting on the world. -/
def npcRemoveRock (w : World) (count : Int) : Bool × World :=
  if count ≤ w.npcRocks then (true, { w with npcRocks := w.npcRocks - count })
  else (false, w)

/-- The `forEach` nearest-neighbour scan of the source: starts with
`minDist = Infinity`, keeps the first strictly-smaller candidate.
Returns the nearest element with its squared distance key. -/
def nearestBy (dist : α → Rat) : List α → Option (α × Rat)
  | [] => none
  | p :: ps =>
      some (ps.foldl (fun b q => if dist q < b.2 then (q, dist q) else b) (p, dist p))

/-- `game.throwRockAt(startPosition, direction, speed, thrower,
checkInventory)` from `main.js`: with `checkInventory` the player
inventory must yield a rock first; then the projectile is recorded and
the call succeeds. -/
def throwRockAt (w : World) (startPos direction : V3) (speed : Rat)
    (throwerId : Int) (checkInventory : Bool) : Bool × World :=
  if checkInventory then
    if 1 ≤ w.playerRocks then
      (true, { w with playerRocks := w.playerRocks - 1,
                      throws := w.throws ++ [⟨startPos, direction, speed, throwerId⟩] })
    else (false, w)
  else
    (true, { w with throws := w.throws ++ [⟨startPos, direction, speed, throwerId⟩] })

/-- Target resolution of `NPCAgent.throwRock`: `"player"`/`"Player"` is
the camera position; otherwise `parseInt` the id and look the NPC up,
producing the spoken error message of each failing branch. -/
def resolveThrowTarget (w : World) (targetId : Option String) : Except String V3 :=
  if targetId = some "player" ∨ targetId = some "Player" then
    Except.ok w.playerPos
  else
    match parseIntJs (jsStr targetId) with
    | none => Except.error ("I don\x27t know who \"" ++ jsStr targetId ++ "\" is.")
    | some tid =>
      match w.npcs.find? (fun p => p.1 = tid) with
      | none => Except.error ("I can\x27t find NPC " ++ toString tid ++ ".")
      | some p =>
        if tid = w.npcId then Except.error "I can\x27t throw at myself!"
        else Except.ok { p.2 with y := p.2.y + 8/5 }

/-- `NPCAgent.throwRock(targetId)`: refuse without a rock; resolve the
target (speaking the error on failure); consume one rock; refund it when
the target is too close (`distance < 0.1`) or when `game.throwRockAt`
reports failure. -/
def throwRock (w : World) (targetId : Option String) : World :=
  if w.npcRocks < 1 then npcSpeak w "I don\x27t have any rocks to throw!"
  else
    match resolveThrowTarget w targetId with
    | .error msg => npcSpeak w msg
    | .ok targetPos =>
      match npcRemoveRock w 1 with
      | (false, w1) => w1
      | (true, w1) =>
        let startPos : V3 := { w1.npcPos with y := w1.npcPos.y + 8/5 }
        let direction := targetPos.sub startPos
        if targetPos.distSq startPos < 1/100 then
          npcSpeak (npcAddRock w1 1) "The target is too close!"
        else
          match throwRockAt w1 startPos direction 15 w1.npcId false with
          | (true, w2) => w2
          | (false, w2) => npcAddRock w2 1

/-- `NPCAgent.collectNearestRock()`: speak when no rock exists; collect
directly within range 2.0 (`rock.collect()` removes it, `addRock(1)`);
otherwise move toward an offset point and schedule the collection after
the fixed movement delay. -/
def collectNearestRock (w : World) : World :=
  match nearestBy (fun r => w.npcPos.distSq r) w.rocks with
  | none => npcSpeak w "I don\x27t see any rocks nearby."
  | some (r, dsq) =>
    if dsq < 4 then
      npcAddRock { w with rocks := w.rocks.erase r } 1
    else
      let dir := if w.npcPos = r then (⟨1, 0, 0⟩ : V3) else w.npcPos.sub r
      let targetPos := r.add (dir.smul (3/2))
      let w1 := moveTo w targetPos.x 0 targetPos.z
      { w1 with pending := w1.pending ++ [Pending.collectRock r] }

/-- `NPCAgent.interactWithNearestLamp()`: same two-phase pattern with
toggle range 3.0. -/
def interactWithNearestLamp (w : World) : World :=
  match nearestBy (fun l => w.npcPos.distSq l) w.lamps with
  | none => npcSpeak w "I don\x27t see any lamps nearby."
  | some (l, dsq) =>
    if dsq < 9 then
      { w with lampToggles := w.lampToggles ++ [l] }
    else
      let dir := if w.npcPos = l then (⟨1, 0, 0⟩ : V3) else w.npcPos.sub l
      let targetPos := l.add (dir.smul (3/2))
      let w1 := moveTo w targetPos.x 0 targetPos.z
      { w1 with pending := w1.pending ++ [Pending.toggleLamp l] }

/-- `NPCAgent.getPlayerPosition()`: speak the camera coordinates. -/
def getPlayerPositionTool (w : World) : World :=
  npcSpeak w ("Player is at (" ++ toFixed 1 w.playerPos.x ++ ", " ++
    toFixed 1 w.playerPos.y ++ ", " ++ toFixed 1 w.playerPos.z ++ ")")

/-- The fixed shelter landmarks hard-coded in `hideFromRain`. -/
def shelterPositions : List (Rat × Rat × String) :=
  [(-15, 15, "tree"), (20, -10, "tree"), (-20, -15, "tree"), (15, 20, "tree"),
   (-10, 25, "tree"), (25, 10, "tree"), (-25, -5, "tree"), (10, 10, "hut")]

/-- `NPCAgent.hideFromRain()`: nearest shelter in the x-z plane, move to
a stand-off point 2.0 away, announce the shelter type. -/
def hideFromRain (w : World) : World :=
  match nearestBy (fun s : Rat × Rat × String => distSq2 w.npcPos.x w.npcPos.z s.1 s.2.1)
      shelterPositions with
  | none => w
  | some (s, _) =>
    let shelterPos : V3 := ⟨s.1, 0, s.2.1⟩
    let dir := if w.npcPos = shelterPos then (⟨1, 0, 0⟩ : V3) else w.npcPos.sub shelterPos
    let targetPos := shelterPos.add (dir.smul 2)
    let w1 := moveTo w targetPos.x 0 targetPos.z
    npcSpeak w1 ("Going to " ++ s.2.2 ++ " for shelter")

/-! ## Tool dispatch (`executeResponse` / `executeTool`) -/

/-- The optional argument fields that the seven tools read out of a tool
call field `args`. -/
structure Args where
  x : Option Rat := none
  y : Option Rat := none
  z : Option Rat := none
  message : Option String := none
  target_id : Option String := none
deriving DecidableEq, Repr

structure ToolCall where
  name : String
  args : Args
deriving DecidableEq, Repr

/-- The seven registered tool names of the `executeTool` switch. -/
def knownToolNames : List String :=
  ["move_to", "speak", "collect_nearest_rock", "interact_with_nearest_lamp",
   "throw_rock", "get_player_position", "hide_from_rain"]

/-- The body of the `executeTool` switch: dispatch on the tool name,
defaulting missing arguments exactly as the source does
(`args.x || 0`, `args.message || ""`, `args.target_id` passed through);
an unknown name only logs a warning. -/
def executeToolBody (tc : ToolCall) (w : World) : World :=
  if tc.name = "move_to" then
    moveTo w (jsOrZero tc.args.x) (jsOrZero tc.args.y) (jsOrZero tc.args.z)
  else if tc.name = "speak" then
    npcSpeak w (tc.args.message.getD "")
  else if tc.name = "collect_nearest_rock" then
    collectNearestRock w
  else if tc.name = "interact_with_nearest_lamp" then
    interactWithNearestLamp w
  else if tc.name = "throw_rock" then
    throwRock w tc.args.target_id
  else if tc.name = "get_player_position" then
    getPlayerPositionTool w
  else if tc.name = "hide_from_rain" then
    hideFromRain w
  else
    w

/-- A tool body as seen by the try/catch of `executeTool`: the world as left
by the body (side effects persist past a throw) and whether it threw. -/
def ToolBody := ToolCall → World → World × Bool

/-- `executeTool`: run the body under try/catch — an exception is logged
and discarded, the world state of the body is kept either way. -/
def executeTool (body : ToolBody) (tc : ToolCall) (w : World) : World :=
  (body tc w).1

/-- The `for (const funcCall of response.functionCalls)` loop of
`executeResponse`: calls execute sequentially, in list order. -/
def executeCalls (body : ToolBody) (calls : List ToolCall) (w : World) : World :=
  calls.foldl (fun w tc => executeTool body tc w) w

/-- The concrete tool implementations.  In this model every body is a
total function, so the thrown flag is `false`; a collaborator exception
in the JS source would make it `true`, and `executeTool` discards it
either way. -/
def npcToolBody : ToolBody := fun tc w => (executeToolBody tc w, false)

/-! ## Reasoning-service protocol (`callGemini` response handling) -/

/-- A `functionCall` object inside an API response (`{name, args?}`). -/
structure FunctionCallData where
  name : String
  args : Option Args
deriving DecidableEq, Repr

/-- One element of `candidates[0].content.parts`: it may carry a `text`
field, a `functionCall` field, both, or neither. -/
structure PartData where
  text : Option String := none
  functionCall : Option FunctionCallData := none
deriving DecidableEq, Repr

structure ContentData where
  parts : Option (List PartData)
deriving DecidableEq, Repr

structure CandidateData where
  content : ContentData
deriving DecidableEq, Repr

/-- The decoded JSON body of a reasoning-service response, restricted to
the fields `callGemini` inspects. -/
structure GeminiData where
  functionCalls : Option (List FunctionCallData) := none
  text : Option String := none
  candidates : Option (List CandidateData) := none
deriving DecidableEq, Repr

/-- The normalized `{ text, functionCalls }` value `callGemini` returns. -/
structure GeminiResponse where
  text : String
  functionCalls : List ToolCall
deriving DecidableEq, Repr

/-- The `data.candidates && data.candidates[0]` branch of `callGemini`:
with a first candidate whose content has a `parts` array (an empty array
is truthy), the function-call parts are collected in order with
`fc.args || {}`, and the text parts (a part with empty text is falsy and
skipped) are joined with a single space and trimmed; otherwise `null`. -/
def parseFromCandidates (data : GeminiData) : Option GeminiResponse :=
  match data.candidates with
  | some (cand :: _) =>
    (match cand.content.parts with
     | some parts =>
        let functionCalls := parts.filterMap (fun p =>
          p.functionCall.map (fun fc => (⟨fc.name, fc.args.getD {}⟩ : ToolCall)))
        let textParts := parts.filter (fun p => truthyStr p.text)
        let responseText :=
          jsTrim (joinSep " " (textParts.map (fun p => p.text.getD "")))
        some ⟨responseText, functionCalls⟩
     | none => none)
  | _ => none

/-- The full response normalization of `callGemini`: a non-empty
top-level `functionCalls` array wins (`data.text || ""`, args defaulted);
otherwise the candidates are inspected. -/
def parseGeminiResponse (data : GeminiData) : Option GeminiResponse :=
  match data.functionCalls with
  | some fcs =>
    if fcs.length > 0 then
      some ⟨data.text.getD "",
            fcs.map (fun fc => (⟨fc.name, fc.args.getD {}⟩ : ToolCall))⟩
    else parseFromCandidates data
  | none => parseFromCandidates data

/-- `NPCAgent.executeResponse(response)`: execute the function calls in
order, then speak any non-empty free text (`response.text` truthy and
with non-blank trim). -/
def executeResponse (r : GeminiResponse) (w : World) : World :=
  let w1 :=
    if r.functionCalls.length > 0 then executeCalls npcToolBody r.functionCalls w
    else w
  if r.text ≠ "" ∧ jsTrim r.text ≠ "" then npcSpeak w1 r.text else w1

/-! ## Agent runtime (`processEvent`) -/

/-- The payload fields of an event that `processEvent` and
`buildEventMessage` read. -/
structure EventData where
  transcript : Option String := none
  change : Option String := none
  details : Option String := none
  throwerId : Option Int := none
deriving DecidableEq, Repr

/-- Per-agent runtime state: the single-flight flag and the memory. -/
structure AgentState where
  isProcessing : Bool
  memory : MemStore
deriving DecidableEq, Repr

/-- Outcomes of the two network calls made during one decision cycle, an
input of the model: `analyzeSentiment` never throws (every internal
failure degrades to a neutral fallback result), while `callGemini` may
throw (transport or HTTP error, `Except.error`) or produce a normalized
response or `null`. -/
structure CycleOracle where
  sentiment : Sentiment
  gemini : Except Unit (Option GeminiResponse)

/-- `NPCAgent.processEvent(eventType, eventData)`: drop the event when a
cycle is already in flight; otherwise set the flag, record a sentiment-
analyzed player message for a `player_query` with a truthy transcript,
call the reasoning service, execute any response, and — in the `finally`
block, on the normal path and on the caught error path alike — clear the
flag. -/
def processEvent (o : CycleOracle) (st : AgentState) (w : World)
    (eventType : String) (eventData : EventData) : AgentState × World :=
  if st.isProcessing then (st, w)
  else
    let mem1 :=
      if eventType = "player_query" ∧ truthyStr eventData.transcript then
        recordPlayerMessage st.memory (eventData.transcript.getD "") o.sentiment
      else st.memory
    match o.gemini with
    | .error _ => (⟨false, mem1⟩, w)
    | .ok none => (⟨false, mem1⟩, w)
    | .ok (some r) => (⟨false, mem1⟩, executeResponse r w)

/-! ## Context assembly and prompt construction
(`getContext` / `buildSystemPrompt` / `buildEventMessage` / the request
body of `callGemini`) -/

/-- A tool declaration (`getToolDefinitions()` entry); the prompt renders
the name and description, the parameter schemas are only sent to the
service and are not inspected by any claim. -/
structure ToolDef where
  name : String
  description : String
deriving DecidableEq, Repr

/-- `NPCAgent.getToolDefinitions()`, names and descriptions verbatim. -/
def getToolDefinitions : List ToolDef :=
  [⟨"move_to",
    "Move to a specific position in the world. The NPC will navigate to the given coordinates."⟩,
   ⟨"speak",
    "Speak a message that will be displayed as text above the NPC and spoken aloud using text-to-speech. Use ONLY plain conversational text - no reasoning, explanations, function call syntax, RPG formatting, asterisks, or narrative descriptions. Just the actual words the character would say."⟩,
   ⟨"collect_nearest_rock",
    "Find the nearest collectable rock, move to it, and collect it automatically. This function handles both movement and collection in one action."⟩,
   ⟨"interact_with_nearest_lamp",
    "Find the nearest lamp, move to it, and toggle it on/off automatically. This function handles both movement and interaction in one action."⟩,
   ⟨"throw_rock",
    "Aim and throw a rock at a target (player or NPC). The target can be \"player\" for the player, or an NPC ID number (e.g., \"1\", \"2\"). The function will automatically aim at the target and throw the projectile."⟩,
   ⟨"get_player_position",
    "Get the current player position coordinates. The NPC will speak the player\x27s position (x, y, z coordinates)."⟩,
   ⟨"hide_from_rain",
    "Find the nearest shelter from rain (tree or hut) and move there. The NPC will automatically navigate to the closest available shelter."⟩]

/-- The fields of `npc.getContextForLLM()` that `buildSystemPrompt`
reads (`state` and `position`; the other fields of that object are never
rendered). -/
structure NpcState where
  npcId : Int
  position : V3
  state : String
deriving DecidableEq, Repr

/-- The context value assembled by `NPCAgent.getContext(eventType,
eventData)` for one decision cycle, restricted to the components the
prompt builders read; `npcPersonality` is `this.npc.personality`, the
fallback of `context.memory.personality || this.npc.personality`. -/
structure AgentContext where
  eventType : String
  eventData : EventData
  npcState : NpcState
  memory : MemoryContext
  npcPersonality : Option Personality
deriving DecidableEq, Repr

/-- `context.memory.personality || this.npc.personality` (an object is
truthy, `null`/`undefined` falsy). -/
def promptPersonality (ctx : AgentContext) : Option Personality :=
  match ctx.memory.personality with
  | some p => some p
  | none => ctx.npcPersonality

/-- `personality.friendliness?.toFixed(2) || "0.50"` (the rendering of a
present value is never the empty string, so `||` only replaces
`undefined`). -/
def legacyTrait (o : Option Rat) : String :=
  match o with
  | some q => toFixed 2 q
  | none => "0.50"

/-- The `personalitySection` string built at the top of
`buildSystemPrompt`. -/
def personalitySection (p : Option Personality) : String :=
  match p with
  | none => "You are an NPC in a 3D game world.\n"
  | some pers =>
    (if truthyStr pers.backstory then pers.backstory.getD "" ++ "\n\n" else "") ++
    (if truthyStr pers.name then "Your name is " ++ pers.name.getD "" ++ ".\n" else "") ++
    (match pers.traits with
     | some traits =>
        "\nYour core values and traits:\n" ++
        String.join (traits.map (fun t =>
          "- " ++ capitalize t.1 ++ ": " ++
            (match t.2 with
             | .num q => toFixed 2 q
             | .str s => s) ++ "\n"))
     | none =>
        "\nYour personality traits:\n" ++
        "- Friendliness: " ++ legacyTrait pers.friendliness ++ "\n" ++
        "- Curiosity: " ++ legacyTrait pers.curiosity ++ "\n" ++
        "- Energy: " ++ legacyTrait pers.energy ++ "\n" ++
        "- Talkativeness: " ++ legacyTrait pers.talkativeness ++ "\n")

/-- The ternary rendering the prompt uses for the reputation score. -/
def reputationText (rep : Int) : String :=
  if rep > 0 then "+" ++ toString rep ++ " (Friendly)"
  else if rep < 0 then toString rep ++ " (Hostile)"
  else "0 (Neutral)"

/-- Rendering of one recent player interaction: `${i.type} (${i.impact})`. -/
def interactionText (i : Interaction) : String :=
  i.itype ++ " (" ++ i.impact ++ ")"

/-- The recent-interactions line of the prompt (last 3, comma-joined). -/
def interactionsLine (l : List Interaction) : String :=
  if l.length > 0 then
    "Recent player interactions: " ++
      joinSep ", " ((takeLast 3 l).map interactionText)
  else "No recent player interactions"

/-- The recent-actions interpolation of the prompt (last 3 action names,
comma-joined). -/
def actionsLine (l : List ActionEntry) : String :=
  if l.length > 0 then joinSep ", " ((takeLast 3 l).map (fun a => a.action))
  else "none"

/-- The tool-catalog block: one `- name: description` line per tool. -/
def toolCatalogText : String :=
  joinSep "\n" (getToolDefinitions.map (fun t => "- " ++ t.name ++ ": " ++ t.description))

/-- `NPCAgent.buildSystemPrompt(context)`: the template literal verbatim,
with its interpolations. -/
def buildSystemPrompt (ctx : AgentContext) : String :=
  personalitySection (promptPersonality ctx) ++
  "\n\nYour current state: " ++ ctx.npcState.state ++
  "\nYour position: (" ++ toFixed 1 ctx.npcState.position.x ++ ", " ++
    toFixed 1 ctx.npcState.position.y ++ ", " ++
    toFixed 1 ctx.npcState.position.z ++ ")" ++
  "\n\nPLAYER REPUTATION: " ++ reputationText ctx.memory.playerReputation ++
  "\n" ++ interactionsLine ctx.memory.recentPlayerInteractions ++
  "\n\nIMPORTANT: Your treatment of the player should be based on how they have treated you. If they have been hostile (negative reputation), you may be more cautious, defensive, or retaliatory. If they have been friendly (positive reputation), you may be more welcoming and helpful. Adjust your responses and actions accordingly.\n\nIMPORTANT: You MUST use function calls to interact with the world. You have access to these tools:\n" ++
  toolCatalogText ++
  "\n\nWhen responding to events:\n1. ALWAYS call at least one function tool to take action\n2. Use speak(message) to communicate with others - your speech will be displayed and spoken aloud\n3. Use collect_nearest_rock() to find the nearest rock, move to it, and collect it automatically (no parameters needed)\n4. Use interact_with_nearest_lamp() to find the nearest lamp, move to it, and toggle it automatically (no parameters needed)\n5. Use move_to(x, z) to move to specific coordinates (x and z are required, y defaults to 0)\n6. Use throw_rock(target_id) to aim and throw a rock at a target - use \"player\" for the player, or an NPC ID like \"1\", \"2\" (target_id is required)\n7. Use hide_from_rain() to find the nearest shelter (tree or hut) and move there when it\x27s raining (no parameters needed)\n8. Use get_player_position() to get the current player\x27s position coordinates (no parameters needed)\n\nDO NOT just respond with text - you MUST call function tools to take actions in the world.\n\nIMPORTANT - Response Format:\n- DO NOT include reasoning, thinking, or explanations in your text response\n- DO NOT include function call syntax (like speak(\"message\")) in your text response\n- ONLY use the speak() function tool to communicate - do not write what you would say in the text response\n- When using the speak() tool, use PLAIN TEXT only. Do NOT use RPG-style formatting like \"*character says*\" or \"*character does action*\"\n- Do NOT include asterisks, italics, or narrative descriptions in your speech\n- Just speak naturally as the character would, using plain conversational text\n- Example: Instead of \"*Elenor says, her voice laced with disapproval*\", just say \"Very well\" or \"I understand\"\n- Your personality should come through in WHAT you say, not HOW you format it\n- If you need to communicate, ONLY call the speak() function - do not include the message in your text response\n\nRecent player actions: " ++
  actionsLine ctx.memory.recentActions ++
  "\n\nBased on your personality, backstory, player reputation, and the current situation, decide what actions to take and call the appropriate function tools. Remember who you are and how the player has treated you. Act accordingly."

/-- The thrower interpolation `thrower?.id || "someone"`: an absent thrower — or the
falsy id `0` — renders as `someone`. -/
def throwerText (o : Option Int) : String :=
  match o with
  | some i => if i = 0 then "someone" else toString i
  | none => "someone"

/-- `NPCAgent.buildEventMessage(context)`: the per-event instruction
templates, verbatim. -/
def buildEventMessage (ctx : AgentContext) : String :=
  if ctx.eventType = "player_query" then
    "The player nearby said: \"" ++ jsStr ctx.eventData.transcript ++
    "\"\n\nYou MUST respond by calling function tools. Use speak(message) to respond verbally (your speech will be displayed and spoken aloud). You can also use other tools like move_to(x, z), collect_nearest_rock(), or interact_with_nearest_lamp() if appropriate. What actions do you take?"
  else if ctx.eventType = "environment_change" then
    "The environment changed: " ++ jsStr ctx.eventData.change ++ " (" ++
    ctx.eventData.details.getD "" ++
    ")\n\nYou MUST react by calling function tools. For example, if it\x27s raining, use hide_from_rain(). If it\x27s getting dark, use interact_with_nearest_lamp() to find the nearest lamp, move to it, and toggle it automatically. What actions do you take?"
  else if ctx.eventType = "hit" then
    "You were hit by " ++ throwerText ctx.eventData.throwerId ++
    "!\n\nYou MUST react by calling function tools. You could use speak(message) to respond, throw_rock(target_id) to retaliate (e.g., throw_rock(\"player\") to hit the player, or throw_rock(\"1\") to hit NPC 1), or move_to(x, z) to get away. What actions do you take?"
  else if ctx.eventType = "periodic" then
    "Periodic check: What do you want to do now? Use function tools to take actions in the world. Available tools: speak(message), move_to(x, z), collect_nearest_rock(), interact_with_nearest_lamp(), throw_rock(target_id), hide_from_rain(), get_player_position()."
  else
    "Event occurred: " ++ ctx.eventType ++
    "\n\nYou MUST respond by calling function tools. Available tools: speak(message), move_to(x, z), collect_nearest_rock(), interact_with_nearest_lamp(), throw_rock(target_id), hide_from_rain(), get_player_position(). What actions do you take?"

/-- One element of the `contents` array of the request body. -/
structure GeminiContent where
  role : String
  parts : List String
deriving DecidableEq, Repr

/-- Mapping of a stored conversation entry into the request history
(`role === "user" ? "user" : "model"`). -/
def convToContent (c : ConvEntry) : GeminiContent :=
  ⟨if c.role = "user" then "user" else "model", [c.content]⟩

/-- The `contents` array `callGemini` sends: the last 5 stored
conversation turns followed by the combined system prompt and event
message as the current user message. -/
def buildGeminiContents (m : MemStore) (ctx : AgentContext) : List GeminiContent :=
  (takeLast 5 m.conversationHistory).map convToContent ++
    [⟨"user", [buildSystemPrompt ctx ++ "\n\n" ++ buildEventMessage ctx]⟩]

/-! ## Concrete sample values used by the witnesses -/

def sampleWorld : World :=
  { npcId := 7, npcPos := ⟨0, 0, 0⟩, npcRocks := 3,
    playerPos := ⟨5, 1, 5⟩, playerRocks := 2,
    npcs := [(1, ⟨10, 0, 10⟩)], rocks := [⟨3, 0, 3⟩], lamps := [⟨4, 0, 4⟩] }

def emptyWorld : World :=
  { npcId := 7, npcPos := ⟨0, 0, 0⟩, npcRocks := 0,
    playerPos := ⟨5, 1, 5⟩, playerRocks := 0,
    npcs := [], rocks := [], lamps := [] }

def sampleSentiment : Sentiment := ⟨"friendly", 9/10, "kind words"⟩

def sampleOracle : CycleOracle :=
  ⟨sampleSentiment, Except.ok none⟩

/-- A response body with an empty `candidates` array and no top-level
`functionCalls` (Scenario C of the spec). -/
def emptyCandidatesData : GeminiData := { functionCalls := some [], candidates := some [] }

def mvCall : ToolCall := ⟨"move_to", { x := some 5, z := some 5 }⟩

def badCall : ToolCall := ⟨"nonexistent_tool", {}⟩

def spCall : ToolCall := ⟨"speak", { message := some "hi" }⟩

/-- A nested-shape response body: two text parts around two
function-call parts, the second call without `args`. -/
def nestedSampleData : GeminiData :=
  { candidates := some
      [⟨⟨some [{ text := some "Hello" },
              { functionCall := some ⟨"move_to", some { x := some 5, z := some 5 }⟩ },
              { text := some "there" },
              { functionCall := some ⟨"speak", none⟩ }]⟩⟩] }

def sampleContext : AgentContext :=
  { eventType := "periodic",
    eventData := {},
    npcState := ⟨7, ⟨1, 0, 2⟩, "idle"⟩,
    memory :=
      ⟨none, -8,
        [⟨"hit", some "player", none, none, "hostile", -10⟩,
         ⟨"message", none, some "hello", some sampleSentiment, "friendly", 2⟩],
        [], [⟨"player_hit", some "player"⟩, ⟨"player_hit", some "player"⟩],
        0, 2, 2⟩,
    npcPersonality := none }

/-! ## Helper lemmas -/

theorem takeLast_eq_of_le {l : List α} {n : Nat} (h : l.length ≤ n) :
    takeLast n l = l := by
  simp [takeLast, Nat.sub_eq_zero_of_le h]

theorem length_takeLast (l : List α) (n : Nat) :
    (takeLast n l).length = min n l.length := by
  simp [takeLast]
  omega

theorem takeLast_append_singleton (L : List α) (e : α) (n : Nat) :
    trimTo n (takeLast n L ++ [e]) = takeLast n (L ++ [e]) := by
  rcases le_or_lt L.length n with h | h
  · rw [takeLast_eq_of_le h, trimTo]
    by_cases h1 : (L ++ [e]).length > n
    · rw [if_pos h1]
    · rw [if_neg h1]
      simp only [List.length_append, List.length_cons, List.length_nil,
        Nat.not_lt] at h1
      exact (takeLast_eq_of_le (by simpa using h1)).symm
  · rcases Nat.eq_zero_or_pos n with hn | hn
    · subst hn
      rw [takeLast, Nat.sub_zero, List.drop_length]
      rw [show ([] : List α) ++ [e] = [e] from rfl]
      rw [trimTo, if_pos (by simp)]
      rw [takeLast, takeLast]
      rw [List.drop_eq_nil_of_le (by simp), List.drop_eq_nil_of_le (by simp)]
    · have hlen : (takeLast n L).length = n := by rw [length_takeLast]; omega
      rw [trimTo, if_pos (by simp [hlen])]
      simp only [takeLast, List.length_append, List.length_drop,
        List.length_cons, List.length_nil]
      rw [show L.length - (L.length - n) + 1 - n = 1 from by omega]
      rw [List.drop_append_of_le_length (by rw [List.length_drop]; omega)]
      rw [List.drop_append_of_le_length (by omega)]
      rw [List.drop_drop]
      rw [show L.length - n + 1 = L.length + 1 - n from by omega]

theorem mem_takeLast {l : List α} {n : Nat} {a : α} (h : a ∈ takeLast n l) :
    a ∈ l :=
  List.mem_of_mem_drop h

theorem takeLast_mono {l : List α} {m n : Nat} (hmn : m ≤ n) {a : α}
    (h : a ∈ takeLast m l) : a ∈ takeLast n l := by
  unfold takeLast at *
  have : l.length - m = (l.length - n) + (l.length - m - (l.length - n)) := by omega
  rw [this, ← List.drop_drop] at h
  exact List.mem_of_mem_drop h

theorem takeLast_takeLast (a b : Nat) (l : List α) :
    takeLast a (takeLast b l) = takeLast (min a b) l := by
  unfold takeLast
  rw [List.length_drop, List.drop_drop]
  congr 1
  omega

theorem strContains_refl (s : String) : strContains s s :=
  ⟨[], [], by simp⟩

theorem strContains_appendL (s t sub : String) (h : strContains t sub) :
    strContains (s ++ t) sub := by
  obtain ⟨a, b, hb⟩ := h
  exact ⟨s.data ++ a, b, by simp [String.data_append, hb, List.append_assoc]⟩

theorem strContains_appendR (s t sub : String) (h : strContains s sub) :
    strContains (s ++ t) sub := by
  obtain ⟨a, b, hb⟩ := h
  exact ⟨a, b ++ t.data, by simp [String.data_append, hb, List.append_assoc]⟩

theorem strContains_joinSep (sep : String) (l : List String) (x : String)
    (h : x ∈ l) : strContains (joinSep sep l) x := by
  induction l with
  | nil => simp at h
  | cons s rest ih =>
      cases rest with
      | nil =>
          rw [List.mem_singleton] at h
          subst h
          exact strContains_refl x
      | cons s2 rest2 =>
          rcases List.mem_cons.mp h with h1 | h2
          · subst h1
            exact strContains_appendR _ _ _
              (strContains_appendR _ _ _ (strContains_refl x))
          · exact strContains_appendL _ _ _ (ih h2)

theorem addAction_playerReputation (m : MemStore) (a : String)
    (t : Option String) (b : Bool) :
    (addAction m a t b).playerReputation = m.playerReputation := by
  unfold addAction; split <;> rfl

theorem addAction_playerInteractions (m : MemStore) (a : String)
    (t : Option String) (b : Bool) :
    (addAction m a t b).playerInteractions = m.playerInteractions := by
  unfold addAction; split <;> rfl

theorem addAction_conversationHistory (m : MemStore) (a : String)
    (t : Option String) (b : Bool) :
    (addAction m a t b).conversationHistory = m.conversationHistory := by
  unfold addAction; split <;> rfl

theorem addConversation_playerReputation (m : MemStore) (r c : String)
    (s : Option Sentiment) :
    (addConversation m r c s).playerReputation = m.playerReputation := by
  unfold addConversation; split <;> rfl

theorem addConversation_playerInteractions (m : MemStore) (r c : String)
    (s : Option Sentiment) :
    (addConversation m r c s).playerInteractions = m.playerInteractions := by
  unfold addConversation; split <;> rfl

theorem addConversation_actionMemory (m : MemStore) (r c : String)
    (s : Option Sentiment) :
    (addConversation m r c s).actionMemory = m.actionMemory := by
  unfold addConversation; split <;> rfl

theorem applyRecOp_reputation (m : MemStore) (op : RecOp) :
    (applyRecOp m op).playerReputation =
      m.playerReputation + (recordedEntry op).reputationChange := by
  cases op with
  | hit t =>
      simp [applyRecOp, recordPlayerHit, addAction_playerReputation,
        recordedEntry, hitEntry]
      omega
  | msg s sent =>
      simp [applyRecOp, recordPlayerMessage, addConversation_playerReputation,
        recordedEntry, messageEntry]

theorem applyRecOp_interactions (m : MemStore) (op : RecOp) :
    (applyRecOp m op).playerInteractions =
      trimTo 50 (m.playerInteractions ++ [recordedEntry op]) := by
  cases op with
  | hit t =>
      simp [applyRecOp, recordPlayerHit, addAction_playerInteractions,
        recordedEntry, trimTo, takeLast]
  | msg s sent =>
      simp [applyRecOp, recordPlayerMessage, addConversation_playerInteractions,
        recordedEntry, trimTo, takeLast]

theorem applyRecOps_reputation (ops : List RecOp) (m : MemStore) :
    (applyRecOps m ops).playerReputation =
      m.playerReputation +
        ((ops.map recordedEntry).map Interaction.reputationChange).sum := by
  induction ops generalizing m with
  | nil => simp [applyRecOps]
  | cons op ops ih =>
      simp only [applyRecOps, List.foldl_cons, List.map_cons, List.sum_cons]
      rw [show List.foldl applyRecOp (applyRecOp m op) ops =
            applyRecOps (applyRecOp m op) ops from rfl, ih,
          applyRecOp_reputation]
      ring

theorem foldl_append_shift {β γ : Type _} (f : γ → List β) (ops : List γ)
    (acc : List β) :
    ops.foldl (fun a op => a ++ f op) acc =
      acc ++ ops.foldl (fun a op => a ++ f op) [] := by
  induction ops generalizing acc with
  | nil => simp
  | cons op ops ih =>
      simp only [List.foldl_cons, List.nil_append]
      rw [ih (acc ++ f op), ih (f op), List.append_assoc]

theorem applyMemOp_conv (m : MemStore) (op : MemOp) (cL : List ConvEntry)
    (hc : m.conversationHistory = takeLast 20 cL) :
    (applyMemOp m op).conversationHistory = takeLast 20 (cL ++ convPush op) := by
  cases op with
  | conv r c s =>
      simp only [applyMemOp, addConversation, convPush]
      by_cases hr : r = "user"
      · rw [if_pos hr, if_pos hr]
        simpa [hc] using takeLast_append_singleton cL (⟨r, c, s⟩ : ConvEntry) 20
      · rw [if_neg hr, if_neg hr]
        simp [hc]
  | act a t b =>
      simp only [applyMemOp, convPush, List.append_nil,
        addAction_conversationHistory]
      exact hc
  | hit t =>
      simp only [applyMemOp, recordPlayerHit, convPush, List.append_nil,
        addAction_conversationHistory]
      exact hc
  | msg s sent =>
      simp only [applyMemOp, recordPlayerMessage, addConversation, convPush,
        if_pos rfl]
      simpa [hc] using
        takeLast_append_singleton cL (⟨"user", s, some sent⟩ : ConvEntry) 20

theorem applyMemOp_act (m : MemStore) (op : MemOp) (aL : List ActionEntry)
    (ha : m.actionMemory = takeLast 30 aL) :
    (applyMemOp m op).actionMemory = takeLast 30 (aL ++ actPush op) := by
  cases op with
  | conv r c s =>
      simp only [applyMemOp, addConversation, actPush, List.append_nil]
      split <;> simpa using ha
  | act a t b =>
      cases b with
      | false =>
          simp only [applyMemOp, addAction, actPush, Bool.false_eq_true,
            if_false, List.append_nil]
          exact ha
      | true =>
          simp only [applyMemOp, addAction, actPush, if_true]
          simpa [ha] using takeLast_append_singleton aL (⟨a, t⟩ : ActionEntry) 30
  | hit t =>
      simp only [applyMemOp, recordPlayerHit, addAction, actPush, if_true]
      simpa [ha] using
        takeLast_append_singleton aL (⟨"player_hit", some t⟩ : ActionEntry) 30
  | msg s sent =>
      simp only [applyMemOp, recordPlayerMessage, addConversation, actPush,
        List.append_nil]
      split <;> simpa using ha

theorem applyMemOp_inter (m : MemStore) (op : MemOp) (iL : List Interaction)
    (hi : m.playerInteractions = takeLast 50 iL) :
    (applyMemOp m op).playerInteractions = takeLast 50 (iL ++ interPush op) := by
  cases op with
  | conv r c s =>
      simp only [applyMemOp, addConversation, interPush, List.append_nil]
      split <;> simpa using hi
  | act a t b =>
      simp only [applyMemOp, interPush, List.append_nil,
        addAction_playerInteractions]
      exact hi
  | hit t =>
      simp only [applyMemOp, recordPlayerHit, addAction, interPush]
      split <;> simpa [hi] using takeLast_append_singleton iL (hitEntry t) 50
  | msg s sent =>
      simp only [applyMemOp, recordPlayerMessage, addConversation, interPush]
      split <;> simpa [hi] using
        takeLast_append_singleton iL (messageEntry s sent) 50

theorem applyMemOps_buffers (ops : List MemOp) (m : MemStore)
    (cL : List ConvEntry) (aL : List ActionEntry) (iL : List Interaction)
    (hc : m.conversationHistory = takeLast 20 cL)
    (ha : m.actionMemory = takeLast 30 aL)
    (hi : m.playerInteractions = takeLast 50 iL) :
    (applyMemOps m ops).conversationHistory =
        takeLast 20 (ops.foldl (fun a op => a ++ convPush op) cL) ∧
    (applyMemOps m ops).actionMemory =
        takeLast 30 (ops.foldl (fun a op => a ++ actPush op) aL) ∧
    (applyMemOps m ops).playerInteractions =
        takeLast 50 (ops.foldl (fun a op => a ++ interPush op) iL) := by
  induction ops generalizing m cL aL iL with
  | nil => exact ⟨hc, ha, hi⟩
  | cons op ops ih =>
      simp only [applyMemOps, List.foldl_cons]
      exact ih (applyMemOp m op) (cL ++ convPush op) (aL ++ actPush op)
        (iL ++ interPush op) (applyMemOp_conv m op cL hc)
        (applyMemOp_act m op aL ha) (applyMemOp_inter m op iL hi)

/-! ## Claim theorems -/

/-- C1: after any sequence of `recordPlayerHit` / `recordPlayerMessage`
calls starting from a fresh store, `playerReputation` equals the sum of
the `reputationChange` deltas of all `PlayerInteraction` entries recorded
over the whole sequence — including entries the 50-entry ring buffer has
since evicted (the sum ranges over `recordedEntry`, and the second
conjunct shows each operation appends exactly that entry to the buffer
before trimming).  The per-event deltas are fixed in `hitEntry` (−10) and
`messageEntry` / `sentimentDelta` (friendly/positive +2,
hostile/threatening/negative −5, neutral +1). -/
theorem reputation_is_sum_of_recorded_deltas (ops : List RecOp) :
    (applyRecOps freshStore ops).playerReputation =
      ((ops.map recordedEntry).map Interaction.reputationChange).sum ∧
    ∀ (m : MemStore) (op : RecOp),
      (applyRecOp m op).playerInteractions =
        trimTo 50 (m.playerInteractions ++ [recordedEntry op]) := by
  refine ⟨?_, applyRecOp_interactions⟩
  rw [applyRecOps_reputation]
  simp [freshStore]

/-- C2: after any sequence of memory mutations (`addConversation`,
`addAction`, `recordPlayerHit`, `recordPlayerMessage`) from an empty
store, each buffer equals exactly the most recent entries of its full
untrimmed log (`takeLast` of the caps 20/30/50), and hence never exceeds
its cap.  Quantifying over all sequences covers the state after every
intermediate mutation. -/
theorem ring_buffers_bounded (ops : List MemOp) :
    (applyMemOps freshStore ops).conversationHistory =
        takeLast 20 (convLog ops) ∧
    (applyMemOps freshStore ops).actionMemory = takeLast 30 (actLog ops) ∧
    (applyMemOps freshStore ops).playerInteractions =
        takeLast 50 (interLog ops) ∧
    (applyMemOps freshStore ops).conversationHistory.length ≤ 20 ∧
    (applyMemOps freshStore ops).actionMemory.length ≤ 30 ∧
    (applyMemOps freshStore ops).playerInteractions.length ≤ 50 := by
  obtain ⟨hc, ha, hi⟩ := applyMemOps_buffers ops freshStore [] [] []
    (by simp [freshStore, takeLast]) (by simp [freshStore, takeLast])
    (by simp [freshStore, takeLast])
  refine ⟨hc, ha, hi, ?_, ?_, ?_⟩
  · rw [hc, length_takeLast]; omega
  · rw [ha, length_takeLast]; omega
  · rw [hi, length_takeLast]; omega

/-- C10: for both rock inventories (`Inventory.removeRocks` of the
player and `NPC.removeRock`), a removal of `k` succeeds, returns `true`
and subtracts exactly `k` when at least `k` rocks are present, and
returns `false` leaving the count unchanged otherwise; consequently a
non-negative count stays non-negative under every sequence of add and
remove operations with non-negative counts. -/
theorem rock_removal_guarded (inv : Inventory) (ninv : NPCInv) (k : Int) :
    (k ≤ inv.rocks →
      inv.removeRocks k = (true, { rocks := inv.rocks - k })) ∧
    (inv.rocks < k → inv.removeRocks k = (false, inv)) ∧
    (k ≤ ninv.rocks →
      ninv.removeRock k = (true, { rocks := ninv.rocks - k })) ∧
    (ninv.rocks < k → ninv.removeRock k = (false, ninv)) ∧
    (∀ ops : List InvOp, (∀ op ∈ ops, 0 ≤ op.count) → 0 ≤ inv.rocks →
      0 ≤ (applyInvOps inv ops).rocks) ∧
    (∀ ops : List InvOp, (∀ op ∈ ops, 0 ≤ op.count) → 0 ≤ ninv.rocks →
      0 ≤ (applyNPCInvOps ninv ops).rocks) := by
  refine ⟨fun h => by simp [Inventory.removeRocks, h],
    fun h => by simp [Inventory.removeRocks, not_le.mpr h],
    fun h => by simp [NPCInv.removeRock, h],
    fun h => by simp [NPCInv.removeRock, not_le.mpr h], ?_, ?_⟩
  · intro ops hops h0
    induction ops generalizing inv with
    | nil => exact h0
    | cons op ops ih =>
        have hop := hops op (by simp)
        have hrest : ∀ op ∈ ops, 0 ≤ op.count := fun o ho => hops o (by simp [ho])
        refine ih (applyInvOp inv op) hrest ?_
        cases op with
        | add c =>
            simp only [applyInvOp, Inventory.addRocks]
            simp only [InvOp.count] at hop
            omega
        | remove c =>
            simp only [applyInvOp, Inventory.removeRocks]
            split
            · simp only [InvOp.count] at hop
              next hle => simp; omega
            · exact h0
  · intro ops hops h0
    induction ops generalizing ninv with
    | nil => exact h0
    | cons op ops ih =>
        have hop := hops op (by simp)
        have hrest : ∀ op ∈ ops, 0 ≤ op.count := fun o ho => hops o (by simp [ho])
        refine ih (applyNPCInvOp ninv op) hrest ?_
        cases op with
        | add c =>
            simp only [applyNPCInvOp, NPCInv.addRock]
            simp only [InvOp.count] at hop
            omega
        | remove c =>
            simp only [applyNPCInvOp, NPCInv.removeRock]
            split
            · simp only [InvOp.count] at hop
              next hle => simp; omega
            · exact h0

/-- Witness for C10 at concrete inputs: a removal of 2 from 3 rocks
succeeds leaving 1, a removal of 5 from 3 fails unchanged, and the
sequence add 2, remove 4, remove 1 keeps the count non-negative. -/
theorem rock_removal_guarded_witness :
    (Inventory.removeRocks ⟨3⟩ 2 = (true, ⟨1⟩)) ∧
    (Inventory.removeRocks ⟨3⟩ 5 = (false, ⟨3⟩)) ∧
    (NPCInv.removeRock ⟨3⟩ 2 = (true, ⟨1⟩)) ∧
    (NPCInv.removeRock ⟨3⟩ 5 = (false, ⟨3⟩)) ∧
    0 ≤ (applyInvOps ⟨3⟩ [InvOp.add 2, InvOp.remove 4, InvOp.remove 1]).rocks ∧
    0 ≤ (applyNPCInvOps ⟨3⟩ [InvOp.add 2, InvOp.remove 4, InvOp.remove 1]).rocks := by
  obtain ⟨h1, _, h3, _, h5, h6⟩ := rock_removal_guarded ⟨3⟩ ⟨3⟩ 2
  obtain ⟨_, h2, _, h4, _, _⟩ := rock_removal_guarded ⟨3⟩ ⟨3⟩ 5
  exact ⟨by simpa using h1 (by decide), by simpa using h2 (by decide),
    by simpa using h3 (by decide), by simpa using h4 (by decide),
    h5 [InvOp.add 2, InvOp.remove 4, InvOp.remove 1] (by decide) (by decide),
    h6 [InvOp.add 2, InvOp.remove 4, InvOp.remove 1] (by decide) (by decide)⟩

/-- C3: a `processEvent` call that arrives while the in-flight flag
`isProcessing` is set returns immediately with the agent state and the
world untouched — no memory mutation and no tool dispatch; a call that
does run finishes with `isProcessing` cleared for every oracle outcome,
i.e. on the normal path, the null-response path and the caught
transport-error path alike, so an agent is never permanently blocked and
two cycles never overlap. -/
theorem processEvent_single_flight (o : CycleOracle) (st : AgentState)
    (w : World) (eventType : String) (eventData : EventData) :
    (st.isProcessing = true →
      processEvent o st w eventType eventData = (st, w)) ∧
    (st.isProcessing = false →
      (processEvent o st w eventType eventData).1.isProcessing = false) := by
  constructor
  · intro h
    simp [processEvent, h]
  · intro h
    simp only [processEvent, h, Bool.false_eq_true, if_false]
    rcases o.gemini with e | ro
    · rfl
    · cases ro <;> rfl

/-- Witness for C3: with the flag set the call is the identity; with the
flag clear it ends released. -/
theorem processEvent_single_flight_witness :
    processEvent sampleOracle ⟨true, freshStore⟩ sampleWorld "periodic" {} =
      (⟨true, freshStore⟩, sampleWorld) ∧
    (processEvent sampleOracle ⟨false, freshStore⟩ sampleWorld "periodic"
        {}).1.isProcessing = false :=
  ⟨(processEvent_single_flight sampleOracle ⟨true, freshStore⟩ sampleWorld
      "periodic" {}).1 rfl,
   (processEvent_single_flight sampleOracle ⟨false, freshStore⟩ sampleWorld
      "periodic" {}).2 rfl⟩

/-- C4: for a response in the nested shape — no non-empty top-level
`functionCalls`, a first candidate whose content carries `parts` — the
normalized text is the space-joined, trimmed concatenation of the text
parts, `toolCalls` is exactly the list of function-call parts in their
original order, and a function call with an absent `args` field gets the
empty argument map. -/
theorem nested_response_normalization (data : GeminiData)
    (cand : CandidateData) (rest : List CandidateData) (ps : List PartData)
    (hfc : data.functionCalls = none ∨ data.functionCalls = some [])
    (hcand : data.candidates = some (cand :: rest))
    (hps : cand.content.parts = some ps) :
    parseGeminiResponse data = some
      ⟨jsTrim (joinSep " " ((ps.filter (fun p => truthyStr p.text)).map
          (fun p => p.text.getD ""))),
        ps.filterMap (fun p =>
          p.functionCall.map (fun fc => (⟨fc.name, fc.args.getD {}⟩ : ToolCall)))⟩ := by
  rcases hfc with h | h <;>
    simp [parseGeminiResponse, parseFromCandidates, h, hcand, hps]

/-- Witness for C4: the sample nested response normalizes to the text
`"Hello there"` and the two tool calls in order, the second with the
empty argument map. -/
theorem nested_response_normalization_witness :
    parseGeminiResponse nestedSampleData = some
      ⟨"Hello there",
        [⟨"move_to", { x := some 5, z := some 5 }⟩, ⟨"speak", {}⟩]⟩ :=
  (nested_response_normalization nestedSampleData
      ⟨⟨some [{ text := some "Hello" },
              { functionCall := some ⟨"move_to", some { x := some 5, z := some 5 }⟩ },
              { text := some "there" },
              { functionCall := some ⟨"speak", none⟩ }]⟩⟩ [] _
      (Or.inl rfl) rfl rfl).trans (by decide)

/-- C5: a response with neither a non-empty top-level `functionCalls`
array nor a first element in `candidates` (in particular an empty
`candidates` array) normalizes to `null`; `processEvent` then treats the
turn as a no-op — it completes with the world untouched and the
in-flight guard released. -/
theorem empty_candidates_is_noop (data : GeminiData) (o : CycleOracle)
    (st : AgentState) (w : World) (eventType : String) (ed : EventData)
    (hfc : data.functionCalls = none ∨ data.functionCalls = some [])
    (hcand : data.candidates = none ∨ data.candidates = some [])
    (hp : st.isProcessing = false)
    (ho : o.gemini = Except.ok (parseGeminiResponse data)) :
    parseGeminiResponse data = none ∧
    (processEvent o st w eventType ed).1.isProcessing = false ∧
    (processEvent o st w eventType ed).2 = w := by
  have hparse : parseGeminiResponse data = none := by
    rcases hfc with h | h <;> rcases hcand with h2 | h2 <;>
      simp [parseGeminiResponse, parseFromCandidates, h, h2]
  rw [hparse] at ho
  refine ⟨hparse, ?_, ?_⟩ <;>
    simp [processEvent, hp, ho]

/-- Witness for C5: the empty-candidates sample, fed through the oracle
into a run from the released state, is a complete no-op turn. -/
theorem empty_candidates_is_noop_witness :
    parseGeminiResponse emptyCandidatesData = none ∧
    (processEvent ⟨sampleSentiment, Except.ok (parseGeminiResponse emptyCandidatesData)⟩
        ⟨false, freshStore⟩ sampleWorld "periodic" {}).1.isProcessing = false ∧
    (processEvent ⟨sampleSentiment, Except.ok (parseGeminiResponse emptyCandidatesData)⟩
        ⟨false, freshStore⟩ sampleWorld "periodic" {}).2 = sampleWorld :=
  empty_candidates_is_noop emptyCandidatesData _ _ _ "periodic" {}
    (Or.inr rfl) (Or.inr rfl) rfl rfl

/-- C6: the dispatcher runs the tool calls of one response strictly in
list order — whatever the body of one call does, including throwing (which
`executeTool` catches per call, keeping the state it left), every
subsequent call still executes on the resulting state (first conjunct,
for an arbitrary body); and a call whose name is not registered has no
effect at all, so e.g. in `[move_to, nonexistent_tool, speak]` both
`move_to` and `speak` execute (second conjunct and witness). -/
theorem dispatcher_order_and_skip :
    (∀ (body : ToolBody) (pre : List ToolCall) (c : ToolCall)
        (post : List ToolCall) (w : World),
      executeCalls body (pre ++ c :: post) w =
        executeCalls body post ((body c (executeCalls body pre w)).1)) ∧
    (∀ (tc : ToolCall) (w : World),
      tc.name ∉ knownToolNames → executeToolBody tc w = w) := by
  constructor
  · intro body pre c post w
    simp [executeCalls, List.foldl_append, executeTool]
  · intro tc w h
    simp only [knownToolNames, List.mem_cons, List.not_mem_nil, or_false,
      not_or] at h
    obtain ⟨h1, h2, h3, h4, h5, h6, h7⟩ := h
    simp [executeToolBody, h1, h2, h3, h4, h5, h6, h7]

/-- Witness for C6, Scenario D: on the sample world,
`[move_to(5,5), nonexistent_tool, speak("hi")]` executes in order, the
unknown call is a no-op, and both `move_to` and `speak` take effect. -/
theorem dispatcher_order_and_skip_witness :
    executeCalls npcToolBody [mvCall, badCall, spCall] sampleWorld =
      executeCalls npcToolBody [spCall]
        ((npcToolBody badCall (executeCalls npcToolBody [mvCall] sampleWorld)).1) ∧
    executeToolBody badCall sampleWorld = sampleWorld ∧
    (executeCalls npcToolBody [mvCall, badCall, spCall] sampleWorld).speeches =
      ["hi"] ∧
    (executeCalls npcToolBody [mvCall, badCall, spCall] sampleWorld).currentTarget =
      some ⟨5, 0, 5⟩ :=
  ⟨dispatcher_order_and_skip.1 npcToolBody [mvCall] badCall [spCall] sampleWorld,
   dispatcher_order_and_skip.2 badCall sampleWorld (by decide),
   by decide, by decide⟩

/-- C7: `throw_rock` with an empty pouch throws nothing, leaves the
count at 0 and speaks the refusal message; and in every invocation the
rock count decreases exactly by the number of projectiles actually
issued — zero on each failure path (invalid or missing target, too-close
target, failed world-level throw: the consumed rock is refunded), one
when the throw happens — with at most one projectile appended per call. -/
theorem throwRock_inventory_accounting (w : World) (targetId : Option String) :
    (w.npcRocks = 0 →
      (throwRock w targetId).npcRocks = 0 ∧
      (throwRock w targetId).throws = w.throws ∧
      (throwRock w targetId).speeches =
        w.speeches ++ ["I don\x27t have any rocks to throw!"]) ∧
    (throwRock w targetId).npcRocks =
      w.npcRocks -
        (((throwRock w targetId).throws.length : Int) -
          ((w.throws.length : Nat) : Int)) ∧
    (throwRock w targetId).throws.length ≤ w.throws.length + 1 ∧
    ∃ l : List Throw, (throwRock w targetId).throws = w.throws ++ l := by
  unfold throwRock
  by_cases h0 : w.npcRocks < 1
  · rw [if_pos h0]
    refine ⟨fun hz => ⟨by simpa [npcSpeak] using hz, by simp [npcSpeak],
      by simp [npcSpeak]⟩, ?_, ?_, [], by simp [npcSpeak]⟩
    · simp [npcSpeak]
    · simp [npcSpeak]
  · rw [if_neg h0]
    have h1 : (1 : Int) ≤ w.npcRocks := by omega
    cases hres : resolveThrowTarget w targetId with
    | error msg =>
        refine ⟨fun hz => by omega, by simp [npcSpeak], by simp [npcSpeak],
          [], by simp [npcSpeak]⟩
    | ok tp =>
        simp only [npcRemoveRock, if_pos h1]
        by_cases hd : tp.distSq { w.npcPos with y := w.npcPos.y + 8/5 } < 1/100
        · rw [if_pos hd]
          refine ⟨fun hz => by omega, ?_, ?_, [], by simp [npcSpeak, npcAddRock]⟩
          · simp [npcSpeak, npcAddRock]
          · simp [npcSpeak, npcAddRock]
        · rw [if_neg hd]
          simp only [throwRockAt, Bool.false_eq_true, if_false]
          refine ⟨fun hz => by omega, ?_, ?_, ?_⟩
          · simp
          · simp
          · exact ⟨_, rfl⟩

/-- Witness for C7: on a world with an empty pouch the refusal branch
fires, and the general accounting instance holds there too. -/
theorem throwRock_inventory_accounting_witness :
    ((throwRock emptyWorld (some "player")).npcRocks = 0 ∧
      (throwRock emptyWorld (some "player")).throws = emptyWorld.throws ∧
      (throwRock emptyWorld (some "player")).speeches =
        emptyWorld.speeches ++ ["I don\x27t have any rocks to throw!"]) ∧
    (throwRock emptyWorld (some "player")).npcRocks =
      emptyWorld.npcRocks -
        (((throwRock emptyWorld (some "player")).throws.length : Int) -
          ((emptyWorld.throws.length : Nat) : Int)) :=
  ⟨(throwRock_inventory_accounting emptyWorld (some "player")).1 (by decide),
   (throwRock_inventory_accounting emptyWorld (some "player")).2.1⟩

/-- C8 counterexample: `move_to` dispatched with an empty `args` map —
both required arguments `x` and `z` missing — is not skipped: it issues
a movement target at the defaulted coordinates (0, 0, 0), a world
effect, contradicting the claim that such a call is skipped with no
world effect. -/
theorem missing_args_counterexample :
    (executeToolBody ⟨"move_to", {}⟩ sampleWorld).currentTarget =
      some ⟨0, 0, 0⟩ ∧
    sampleWorld.currentTarget = none ∧
    executeToolBody ⟨"move_to", {}⟩ sampleWorld ≠ sampleWorld := by
  refine ⟨by decide, by decide, ?_⟩
  intro h
  have := congrArg World.currentTarget h
  simp [executeToolBody, moveTo, jsOrZero, sampleWorld] at this

/-- C8 (amended): a dispatched tool call with a missing required
argument is not validated or skipped; the source accesses the fields
defensively instead — `move_to` substitutes 0 for the missing
coordinates and sets a movement target, `speak` speaks the empty
message, and `throw_rock` without a `target_id` speaks an error and
issues no projectile and consumes no rock; in all cases sibling tool
calls and the rest of the event still execute (last conjunct). -/
theorem missing_args_defaulted (w : World) :
    executeToolBody ⟨"move_to", {}⟩ w = moveTo w 0 0 0 ∧
    executeToolBody ⟨"speak", {}⟩ w = npcSpeak w "" ∧
    (executeToolBody ⟨"throw_rock", {}⟩ w).throws = w.throws ∧
    (executeToolBody ⟨"throw_rock", {}⟩ w).npcRocks = w.npcRocks ∧
    ∀ (body : ToolBody) (pre post : List ToolCall) (tc : ToolCall)
      (w2 : World),
      executeCalls body (pre ++ tc :: post) w2 =
        executeCalls body post ((body tc (executeCalls body pre w2)).1) := by
  have hparse : parseIntJs (jsStr (none : Option String)) = none := by decide
  have hthrow : (executeToolBody ⟨"throw_rock", {}⟩ w).throws = w.throws ∧
      (executeToolBody ⟨"throw_rock", {}⟩ w).npcRocks = w.npcRocks := by
    show (throwRock w none).throws = w.throws ∧
      (throwRock w none).npcRocks = w.npcRocks
    unfold throwRock
    by_cases h0 : w.npcRocks < 1
    · rw [if_pos h0]
      exact ⟨by simp [npcSpeak], by simp [npcSpeak]⟩
    · rw [if_neg h0]
      rw [show resolveThrowTarget w none =
            Except.error "I don\x27t know who \"undefined\" is." from by
        simp [resolveThrowTarget, hparse]
        rfl]
      exact ⟨by simp [npcSpeak], by simp [npcSpeak]⟩
  exact ⟨rfl, rfl, hthrow.1, hthrow.2,
    fun body pre post tc w2 => by
      simp [executeCalls, List.foldl_append, executeTool]⟩

/-- C9: every prompt builder here is a pure function of the agent
identity, NPC/environment state, memory contents and tool catalog — the
source reads no clock and no randomness while assembling the context, so
identical inputs give identical prompts — and the material sent to the
reasoning call includes the rendered reputation score, the renderings of
the last 3 player interactions, the actions among the last 2 recorded
player actions (the source renders the last 3, which contain the last
2), the full tool catalog with its descriptions, and, in the request
contents, the last 5 stored player conversation turns followed by the
combined system prompt and event message. -/
theorem prompt_includes_context (ctx : AgentContext) (m : MemStore) :
    strContains (buildSystemPrompt ctx)
      (reputationText ctx.memory.playerReputation) ∧
    (∀ i ∈ takeLast 3 ctx.memory.recentPlayerInteractions,
      strContains (buildSystemPrompt ctx) (interactionText i)) ∧
    (∀ a ∈ takeLast 2 ctx.memory.recentActions,
      strContains (buildSystemPrompt ctx) a.action) ∧
    (∀ t ∈ getToolDefinitions,
      strContains (buildSystemPrompt ctx)
        ("- " ++ t.name ++ ": " ++ t.description)) ∧
    buildGeminiContents m ctx =
      (takeLast 5 m.conversationHistory).map convToContent ++
        [⟨"user", [buildSystemPrompt ctx ++ "\n\n" ++ buildEventMessage ctx]⟩] ∧
    takeLast 3 (MemStore.getContext m).recentPlayerInteractions =
      takeLast 3 m.playerInteractions ∧
    takeLast 2 (MemStore.getContext m).recentActions =
      takeLast 2 m.actionMemory := by
  refine ⟨?_, ?_, ?_, ?_, rfl, ?_, ?_⟩
  · unfold buildSystemPrompt
    apply strContains_appendR
    apply strContains_appendR
    apply strContains_appendR
    apply strContains_appendR
    apply strContains_appendR
    apply strContains_appendR
    apply strContains_appendR
    exact strContains_appendL _ _ _ (strContains_refl _)
  · intro i hi
    have hne : ctx.memory.recentPlayerInteractions ≠ [] := by
      intro h
      rw [h] at hi
      simp [takeLast] at hi
    have hl : ctx.memory.recentPlayerInteractions.length > 0 :=
      List.length_pos.mpr hne
    unfold buildSystemPrompt
    apply strContains_appendR
    apply strContains_appendR
    apply strContains_appendR
    apply strContains_appendR
    apply strContains_appendR
    apply strContains_appendL
    rw [interactionsLine, if_pos hl]
    apply strContains_appendL
    exact strContains_joinSep _ _ _ (List.mem_map_of_mem interactionText hi)
  · intro a ha
    have ha3 : a ∈ takeLast 3 ctx.memory.recentActions :=
      takeLast_mono (by norm_num) ha
    have hne : ctx.memory.recentActions ≠ [] := by
      intro h
      rw [h] at ha
      simp [takeLast] at ha
    have hl : ctx.memory.recentActions.length > 0 := List.length_pos.mpr hne
    unfold buildSystemPrompt
    apply strContains_appendR
    apply strContains_appendL
    rw [actionsLine, if_pos hl]
    exact strContains_joinSep _ _ _
      (List.mem_map_of_mem (fun e => e.action) ha3)
  · intro t ht
    unfold buildSystemPrompt
    apply strContains_appendR
    apply strContains_appendR
    apply strContains_appendR
    apply strContains_appendL
    unfold toolCatalogText
    refine strContains_joinSep _ _ _ ?_
    have := List.mem_map_of_mem
      (fun d : ToolDef => "- " ++ d.name ++ ": " ++ d.description) ht
    simpa using this
  · simp [MemStore.getContext, takeLast_takeLast]
  · simp [MemStore.getContext, takeLast_takeLast]

/-- Witness for C9 at the sample context: the rendered reputation, a
concrete last-3 interaction, a concrete last-2 action name and a
concrete catalog line all occur in the prompt. -/
theorem prompt_includes_context_witness :
    strContains (buildSystemPrompt sampleContext)
      (reputationText sampleContext.memory.playerReputation) ∧
    strContains (buildSystemPrompt sampleContext)
      (interactionText ⟨"hit", some "player", none, none, "hostile", -10⟩) ∧
    strContains (buildSystemPrompt sampleContext)
      (ActionEntry.action ⟨"player_hit", some "player"⟩) ∧
    strContains (buildSystemPrompt sampleContext)
      ("- " ++ "move_to" ++ ": " ++
        "Move to a specific position in the world. The NPC will navigate to the given coordinates.") :=
  ⟨(prompt_includes_context sampleContext freshStore).1,
   (prompt_includes_context sampleContext freshStore).2.1
     ⟨"hit", some "player", none, none, "hostile", -10⟩ (by decide),
   (prompt_includes_context sampleContext freshStore).2.2.1
     ⟨"player_hit", some "player"⟩ (by decide),
   (prompt_includes_context sampleContext freshStore).2.2.2.1
     ⟨"move_to",
      "Move to a specific position in the world. The NPC will navigate to the given coordinates."⟩
     (by decide)⟩

end WastedPotential
